import Mathlib

/-!
# Lambda middleware chain (`main.go`)

A shallow embedding of the handler chain `StayToasty (ParseEvent Process)` that
`main` registers with the Lambda runtime, together with the properties of the
three layers.

* Go functions with side effects are state-passing functions over a `World`:
  the lines written through the standard logger plus an arbitrary remainder
  that downstream handlers may read and write.
* `json.Unmarshal` belongs to Go's standard library, not to this program. The
  layers take it as a parameter (`JsonPackage`), so every theorem about them
  holds for whatever the decoder does. `encodingJson` is a concrete decoder
  following the documented behaviour of `encoding/json` for the two struct
  targets used here; it is what the concrete payloads are evaluated with.
-/

namespace LambdaMiddleware

/-! ## Data model -/

/-- Go `context.Context` as seen by a handler: the deadline, whether it has
been cancelled, and the request-scoped values. No layer of the chain reads
any of it. -/
structure Context where
  deadline : Option Nat
  cancelled : Bool
  values : List (String × String)
deriving DecidableEq, Repr

/-- Go `json.RawMessage`: the raw bytes of the payload. -/
abbrev RawMessage := List UInt8

/-- Go `type Event struct { GenericField string }`. -/
structure Event where
  GenericField : String
deriving DecidableEq, Repr

/-- The record `type ping struct { Ping string }` (JSON key `ping`) local to
`StayToasty`. -/
structure ping where
  Ping : String
deriving DecidableEq, Repr

/-- Error values created inside `encoding/json`, without their byte offset and
message text. -/
inductive JsonError where
  /-- Go `*json.SyntaxError`: the payload is not well-formed JSON. -/
  | syntaxError
  /-- Go `*json.UnmarshalTypeError`: a JSON value of kind `value` cannot be
  stored in the target (`field` is the struct field, empty for the struct
  itself). -/
  | unmarshalTypeError (value : String) (field : String)
  /-- Any other error of the package, identified by its message. -/
  | other (msg : String)
deriving DecidableEq, Repr

/-- A non-nil value of Go's `error` interface. -/
inductive GoError where
  /-- An error value that comes out of `encoding/json`, held as is. -/
  | json (e : JsonError)
  /-- The value returned by `errors.New msg`. -/
  | errorString (msg : String)
  /-- Any other error type a business handler may return. -/
  | custom (code : Nat) (msg : String)
deriving DecidableEq, Repr

/-- A value of Go's `interface{}` as returned by a handler. -/
inductive Value where
  | nil
  | string (s : String)
  | int (n : Int)
  | bool (b : Bool)
  | record (fields : List (String × String))
deriving DecidableEq, Repr

/-- The pair `(interface{}, error)` a handler returns; `none` is the nil
error. -/
abbrev Result := Value × Option GoError

/-- The part of the process a handler can observe or change: the lines passed
to the standard logger, and everything else (`rest`). -/
structure World (σ : Type) where
  log : List String
  rest : σ
deriving DecidableEq, Repr

/-- Go `log.Println line` on the standard logger. -/
def logPrintln {σ : Type} (line : String) (w : World σ) : World σ :=
  { w with log := w.log ++ [line] }

/-- Go `type HandlerFunc func(context.Context, json.RawMessage) (interface{}, error)`.
A handler is a function that returns: a nil function value, a panic and a
call that never returns are not represented. -/
abbrev HandlerFunc (σ : Type) := Context → RawMessage → World σ → Result × World σ

/-- Go `type EventHandler func(*context.Context, *Event) (interface{}, error)`.
The two pointers refer to variables local to one call of the closure built by
`ParseEvent`, which does not read them again after the call, so they are passed
by value. -/
abbrev EventHandler (σ : Type) := Context → Event → World σ → Result × World σ

/-- The two uses of `json.Unmarshal(data, &v)` in the program, one per target
type. Each takes the payload and the value `v` holds before the call, and
gives the value `v` holds afterwards together with the returned error. -/
structure JsonPackage where
  unmarshalPing : RawMessage → ping → ping × Option JsonError
  unmarshalEvent : RawMessage → Event → Event × Option JsonError

/-! ## A decoder following `encoding/json` -/

namespace Json

/-- The UTF-8 bytes of a string constant. -/
def bytes (s : String) : RawMessage :=
  s.data.flatMap String.utf8EncodeChar

/-- Lexical elements of a JSON text. A string keeps the bytes between its
quotes, escapes not yet expanded. -/
inductive Token where
  | beginObject | endObject | beginArray | endArray | colon | comma
  | string (raw : List UInt8)
  | number | litTrue | litFalse | litNull
deriving DecidableEq, Repr

/-- Where the scanner is inside a number. -/
inductive NumState where
  | neg | zero | int | dot | frac | exp | expSign | expDigits
deriving DecidableEq, Repr

/-- What the scanner is in the middle of. String bytes are kept in reverse. -/
inductive LexMode where
  | ready
  | inString (rev : List UInt8)
  | inEscape (rev : List UInt8)
  | inUnicode (rev : List UInt8) (missing : Nat)
  | inLiteral (tok : Token) (remaining : List UInt8)
  | inNumber (st : NumState)
deriving DecidableEq, Repr

/-- The four bytes JSON allows as white space. -/
def isSpace (c : UInt8) : Bool :=
  c == 0x20 || c == 0x09 || c == 0x0D || c == 0x0A

/-- The bytes `0` to `9`. -/
def isDigit (c : UInt8) : Bool :=
  0x30 ≤ c && c ≤ 0x39

/-- The bytes that are hexadecimal digits, in either case. -/
def isHex (c : UInt8) : Bool :=
  isDigit c || (0x61 ≤ c && c ≤ 0x66) || (0x41 ≤ c && c ≤ 0x46)

/-- One byte read between two tokens. `toks` is the reversed list of the
tokens read so far. -/
def readyStep (toks : List Token) (c : UInt8) : Option (LexMode × List Token) :=
  if isSpace c then some (.ready, toks)
  else if c == 0x7B then some (.ready, .beginObject :: toks)
  else if c == 0x7D then some (.ready, .endObject :: toks)
  else if c == 0x5B then some (.ready, .beginArray :: toks)
  else if c == 0x5D then some (.ready, .endArray :: toks)
  else if c == 0x3A then some (.ready, .colon :: toks)
  else if c == 0x2C then some (.ready, .comma :: toks)
  else if c == 0x22 then some (.inString [], toks)
  else if c == 0x2D then some (.inNumber .neg, toks)
  else if c == 0x30 then some (.inNumber .zero, toks)
  else if isDigit c then some (.inNumber .int, toks)
  else if c == 0x74 then some (.inLiteral .litTrue (bytes "rue"), toks)
  else if c == 0x66 then some (.inLiteral .litFalse (bytes "alse"), toks)
  else if c == 0x6E then some (.inLiteral .litNull (bytes "ull"), toks)
  else none

/-- One byte read inside a number: `some (some st)` when the number goes on in
state `st`, `some none` when the number ended just before this byte, `none`
when the byte makes the number ill-formed. -/
def numStep (st : NumState) (c : UInt8) : Option (Option NumState) :=
  let isE := c == 0x65 || c == 0x45
  match st with
  | .neg => if c == 0x30 then some (some .zero) else if isDigit c then some (some .int) else none
  | .zero => if c == 0x2E then some (some .dot) else if isE then some (some .exp) else some none
  | .int =>
    if isDigit c then some (some .int) else if c == 0x2E then some (some .dot)
    else if isE then some (some .exp) else some none
  | .dot => if isDigit c then some (some .frac) else none
  | .frac => if isDigit c then some (some .frac) else if isE then some (some .exp) else some none
  | .exp =>
    if c == 0x2B || c == 0x2D then some (some .expSign)
    else if isDigit c then some (some .expDigits) else none
  | .expSign => if isDigit c then some (some .expDigits) else none
  | .expDigits => if isDigit c then some (some .expDigits) else some none

/-- The states in which a number may end. -/
def NumState.complete : NumState → Bool
  | .zero | .int | .frac | .expDigits => true
  | _ => false

/-- One step of the scanner. -/
def lexStep (s : LexMode × List Token) (c : UInt8) : Option (LexMode × List Token) :=
  match s with
  | (.ready, toks) => readyStep toks c
  | (.inString rev, toks) =>
    if c == 0x22 then some (.ready, .string rev.reverse :: toks)
    else if c == 0x5C then some (.inEscape (c :: rev), toks)
    else if c < 0x20 then none
    else some (.inString (c :: rev), toks)
  | (.inEscape rev, toks) =>
    if c == 0x75 then some (.inUnicode (c :: rev) 4, toks)
    else if c == 0x62 || c == 0x66 || c == 0x6E || c == 0x72 || c == 0x74
        || c == 0x5C || c == 0x2F || c == 0x22 then
      some (.inString (c :: rev), toks)
    else none
  | (.inUnicode rev missing, toks) =>
    if isHex c then
      if missing ≤ 1 then some (.inString (c :: rev), toks)
      else some (.inUnicode (c :: rev) (missing - 1), toks)
    else none
  | (.inLiteral tok remaining, toks) =>
    match remaining with
    | [] => none
    | [x] => if c == x then some (.ready, tok :: toks) else none
    | x :: more => if c == x then some (.inLiteral tok more, toks) else none
  | (.inNumber st, toks) =>
    match numStep st c with
    | none => none
    | some (some st') => some (.inNumber st', toks)
    | some none => readyStep (.number :: toks) c

/-- Runs the scanner over the bytes. -/
def lexFrom : LexMode × List Token → List UInt8 → Option (LexMode × List Token)
  | s, [] => some s
  | s, c :: cs =>
    match lexStep s c with
    | none => none
    | some s' => lexFrom s' cs

/-- The tokens of a JSON text, or `none` when some token is ill-formed or
left unfinished at the end of the input. -/
def lex (data : RawMessage) : Option (List Token) :=
  match lexFrom (.ready, []) data with
  | some (.ready, toks) => some toks.reverse
  | some (.inNumber st, toks) => if st.complete then some (Token.number :: toks).reverse else none
  | _ => none

/-- The container the parser is inside of. -/
inductive Frame where
  | object | array
deriving DecidableEq, Repr

/-- What the parser needs next. -/
inductive Expect where
  | value | valueOrEnd | keyOrEnd | key | colon | commaOrEnd | done
deriving DecidableEq, Repr

/-- Go's `maxNestingDepth`. -/
def maxNestingDepth : Nat := 10000

/-- The state after a complete value. -/
def afterValue (stack : List Frame) : Expect × List Frame :=
  match stack with
  | [] => (.done, [])
  | _ => (.commaOrEnd, stack)

/-- The state after the token that starts a value. -/
def startValue (stack : List Frame) (t : Token) : Option (Expect × List Frame) :=
  match t with
  | .beginObject =>
    if stack.length + 1 ≤ maxNestingDepth then some (.keyOrEnd, .object :: stack) else none
  | .beginArray =>
    if stack.length + 1 ≤ maxNestingDepth then some (.valueOrEnd, .array :: stack) else none
  | .string _ | .number | .litTrue | .litFalse | .litNull => some (afterValue stack)
  | _ => none

/-- One step of the parser over the tokens. -/
def parseStep (s : Expect × List Frame) (t : Token) : Option (Expect × List Frame) :=
  match s with
  | (.value, stack) => startValue stack t
  | (.valueOrEnd, stack) =>
    match t, stack with
    | .endArray, .array :: outer => some (afterValue outer)
    | _, _ => startValue stack t
  | (.keyOrEnd, stack) =>
    match t, stack with
    | .endObject, .object :: outer => some (afterValue outer)
    | .string _, _ => some (.colon, stack)
    | _, _ => none
  | (.key, stack) =>
    match t with
    | .string _ => some (.colon, stack)
    | _ => none
  | (.colon, stack) =>
    match t with
    | .colon => some (.value, stack)
    | _ => none
  | (.commaOrEnd, stack) =>
    match t, stack with
    | .comma, .object :: _ => some (.key, stack)
    | .comma, .array :: _ => some (.value, stack)
    | .endObject, .object :: outer => some (afterValue outer)
    | .endArray, .array :: outer => some (afterValue outer)
    | _, _ => none
  | (.done, _) => none

/-- Runs the parser over the tokens. -/
def parseFrom : Expect × List Frame → List Token → Option (Expect × List Frame)
  | s, [] => some s
  | s, t :: ts =>
    match parseStep s t with
    | none => none
    | some s' => parseFrom s' ts

/-- Whether the tokens form exactly one JSON value. -/
def wellFormed (toks : List Token) : Bool :=
  match parseFrom (.value, []) toks with
  | some (.done, _) => true
  | _ => false

/-! ### Expanding a string literal -/

/-- The value of a hexadecimal digit. -/
def hexVal (c : UInt8) : Nat :=
  if isDigit c then c.toNat - 0x30
  else if 0x61 ≤ c && c ≤ 0x66 then c.toNat - 0x61 + 10
  else c.toNat - 0x41 + 10

/-- The number written by four hexadecimal digits. -/
def hex4 (a b c d : UInt8) : Nat :=
  ((hexVal a * 16 + hexVal b) * 16 + hexVal c) * 16 + hexVal d

/-- Unicode's replacement character, which Go substitutes for whatever is not
valid UTF-8 or not a valid UTF-16 pair. -/
def replacementChar : Char := Char.ofNat 0xFFFD

/-- Whether `c` is a UTF-8 continuation byte. -/
def isCont (c : UInt8) : Bool :=
  0x80 ≤ c && c ≤ 0xBF

/-- Go `utf8.DecodeRune` at the head of `c :: cs`, for `c` not ASCII: the rune
and how many bytes after `c` belong to it. Ill-formed input gives the
replacement character and consumes `c` alone. -/
def decodeRune (c : UInt8) (cs : List UInt8) : Char × Nat :=
  let bad : Char × Nat := (replacementChar, 0)
  if 0xC2 ≤ c && c ≤ 0xDF then
    match cs with
    | c1 :: _ =>
      if isCont c1 then (Char.ofNat ((c.toNat - 0xC0) * 64 + (c1.toNat - 0x80)), 1) else bad
    | _ => bad
  else if 0xE0 ≤ c && c ≤ 0xEF then
    match cs with
    | c1 :: c2 :: _ =>
      let lo : UInt8 := if c == 0xE0 then 0xA0 else 0x80
      let hi : UInt8 := if c == 0xED then 0x9F else 0xBF
      if lo ≤ c1 && c1 ≤ hi && isCont c2 then
        (Char.ofNat (((c.toNat - 0xE0) * 64 + (c1.toNat - 0x80)) * 64 + (c2.toNat - 0x80)), 2)
      else bad
    | _ => bad
  else if 0xF0 ≤ c && c ≤ 0xF4 then
    match cs with
    | c1 :: c2 :: c3 :: _ =>
      let lo : UInt8 := if c == 0xF0 then 0x90 else 0x80
      let hi : UInt8 := if c == 0xF4 then 0x8F else 0xBF
      if lo ≤ c1 && c1 ≤ hi && isCont c2 && isCont c3 then
        (Char.ofNat ((((c.toNat - 0xF0) * 64 + (c1.toNat - 0x80)) * 64
          + (c2.toNat - 0x80)) * 64 + (c3.toNat - 0x80)), 3)
      else bad
    | _ => bad
  else bad

/-- The character a one-letter escape stands for. -/
def simpleEscape (c : UInt8) : Char :=
  if c == 0x62 then Char.ofNat 0x08
  else if c == 0x66 then Char.ofNat 0x0C
  else if c == 0x6E then Char.ofNat 0x0A
  else if c == 0x72 then Char.ofNat 0x0D
  else if c == 0x74 then Char.ofNat 0x09
  else Char.ofNat c.toNat

/-- The rune of a `\uXXXX` escape with value `u`, given the bytes that follow
it: the rune, and whether the following escape was used up as the second half
of a UTF-16 pair. -/
def unicodeEscape (u : Nat) (cs : List UInt8) : Char × Bool :=
  if 0xD800 ≤ u ∧ u < 0xE000 then
    match cs with
    | 0x5C :: 0x75 :: a :: b :: c :: d :: _ =>
      let v := hex4 a b c d
      if isHex a && isHex b && isHex c && isHex d
          && decide (u < 0xDC00) && decide (0xDC00 ≤ v) && decide (v < 0xE000) then
        (Char.ofNat ((u - 0xD800) * 1024 + (v - 0xDC00) + 0x10000), true)
      else (replacementChar, false)
    | _ => (replacementChar, false)
  else (Char.ofNat u, false)

/-- Go `unquote` on the bytes between the quotes of a well-formed string
literal. `skip` counts bytes already used up by the rune before them. -/
def unquoteFrom : Nat → List UInt8 → List Char
  | _, [] => []
  | skip + 1, _ :: cs => unquoteFrom skip cs
  | 0, c :: cs =>
    if c == 0x5C then
      match cs with
      | 0x75 :: a :: b :: c1 :: d :: more =>
        let r := unicodeEscape (hex4 a b c1 d) more
        r.1 :: unquoteFrom (if r.2 then 11 else 5) cs
      | e :: _ => simpleEscape e :: unquoteFrom 1 cs
      | [] => []
    else if c < 0x80 then Char.ofNat c.toNat :: unquoteFrom 0 cs
    else
      let r := decodeRune c cs
      r.1 :: unquoteFrom r.2 cs

/-- The Go string a string literal denotes. -/
def unquote (raw : List UInt8) : String :=
  String.mk (unquoteFrom 0 raw)

/-! ### Storing into a struct with one string field -/

/-- Whether an object key selects the field with JSON name `name`: an exact
match, or else a match that ignores letter case. -/
def keyMatches (name : String) (key : String) : Bool :=
  key == name || key.data.map Char.toLower == name.data.map Char.toLower

/-- The field value and the first error saved so far. -/
abbrev Store := String × Option JsonError

/-- Go `saveError`: only the first error is kept. -/
def saveError (st : Store) (e : JsonError) : Store :=
  match st.2 with
  | none => (st.1, some e)
  | some _ => st

/-- The kind Go names in an `UnmarshalTypeError` for the value that starts
with token `t`; `none` for `null`, which is stored nowhere, and for tokens
that start no value. -/
def valueKind : Token → Option String
  | .beginObject => some "object"
  | .beginArray => some "array"
  | .string _ => some "string"
  | .number => some "number"
  | .litTrue | .litFalse => some "bool"
  | _ => none

/-- Walks the tokens that follow the opening brace of the top-level object.
`depth` is 1 directly inside that object; `pending` is `some m` between a key
at depth 1 and its value, `m` telling whether the key selects the field. -/
def decodeMembers (name : String) : List Token → Nat → Option Bool → Store → Store
  | [], _, _, st => st
  | t :: ts, depth, pending, st =>
    if depth = 0 then st
    else if depth = 1 then
      match pending, t with
      | none, .string raw => decodeMembers name ts 1 (some (keyMatches name (unquote raw))) st
      | none, .endObject => st
      | none, _ => decodeMembers name ts 1 none st
      | some m, .colon => decodeMembers name ts 1 (some m) st
      | some true, .string raw => decodeMembers name ts 1 none (unquote raw, st.2)
      | some true, .litNull => decodeMembers name ts 1 none st
      | some true, .beginObject =>
        decodeMembers name ts 2 none (saveError st (.unmarshalTypeError "object" name))
      | some true, .beginArray =>
        decodeMembers name ts 2 none (saveError st (.unmarshalTypeError "array" name))
      | some true, v =>
        match valueKind v with
        | some kind => decodeMembers name ts 1 none (saveError st (.unmarshalTypeError kind name))
        | none => decodeMembers name ts 1 none st
      | some false, .beginObject => decodeMembers name ts 2 none st
      | some false, .beginArray => decodeMembers name ts 2 none st
      | some false, _ => decodeMembers name ts 1 none st
    else
      match t with
      | .beginObject | .beginArray => decodeMembers name ts (depth + 1) none st
      | .endObject | .endArray => decodeMembers name ts (depth - 1) none st
      | _ => decodeMembers name ts depth none st

/-- Go `json.Unmarshal(data, &v)` for a struct `v` whose only field is a string
with JSON name `name`: from the field's value before the call to its value
after the call and the returned error. -/
def unmarshalStringField (name : String) (data : RawMessage) (cur : String) : Store :=
  match lex data with
  | none => (cur, some .syntaxError)
  | some toks =>
    if wellFormed toks then
      match toks with
      | .beginObject :: members => decodeMembers name members 1 none (cur, none)
      | .litNull :: _ => (cur, none)
      | t :: _ =>
        match valueKind t with
        | some kind => (cur, some (.unmarshalTypeError kind ""))
        | none => (cur, none)
      | [] => (cur, none)
    else (cur, some .syntaxError)

end Json

/-- The decoder of Go's `encoding/json` for the two targets of this program:
`ping`, whose field has JSON name `ping`, and `Event`, whose field has JSON
name `GenericField`. -/
def encodingJson : JsonPackage where
  unmarshalPing := fun data p =>
    let r := Json.unmarshalStringField "ping" data p.Ping
    ({ Ping := r.1 }, r.2)
  unmarshalEvent := fun data e =>
    let r := Json.unmarshalStringField "GenericField" data e.GenericField
    ({ GenericField := r.1 }, r.2)

/-! ## The middleware layers -/

/-- Go `MiddlewareFunc`: the generic middleware, which only calls `next`. -/
def MiddlewareFunc {σ : Type} (next : HandlerFunc σ) : HandlerFunc σ :=
  fun ctx data w => next ctx data w

/-- Go `StayToasty`: answers `"pong"` to a ping, otherwise calls `next`. -/
def StayToasty {σ : Type} (J : JsonPackage) (next : HandlerFunc σ) : HandlerFunc σ :=
  fun ctx data w =>
    let r := J.unmarshalPing data { Ping := "" }
    if r.2 = none ∧ r.1.Ping ≠ "" then
      ((Value.string "pong", none), logPrintln "ping" w)
    else
      next ctx data w

/-- Go `ParseEvent`: unmarshals an `Event`, rejects an empty `GenericField`,
and passes control to `h`. -/
def ParseEvent {σ : Type} (J : JsonPackage) (h : EventHandler σ) : HandlerFunc σ :=
  fun ctx data w =>
    let r := J.unmarshalEvent data { GenericField := "" }
    match r.2 with
    | some err => ((Value.nil, some (GoError.json err)), w)
    | none =>
      if r.1.GenericField = "" then
        ((Value.nil, some (GoError.errorString "GenericField must be populated")), w)
      else
        h ctx r.1 w

/-- Go `Process`: the placeholder business handler. -/
def Process {σ : Type} : EventHandler σ :=
  fun _ctx _event w => ((Value.nil, none), logPrintln "processing event" w)

/-- The handler that `main` passes to `lambda.Start`. -/
def mainHandler {σ : Type} (J : JsonPackage) : HandlerFunc σ :=
  StayToasty J (ParseEvent J Process)

/-! ## Observing invocations

To state which handler is entered and with which arguments, a handler is run
in a world that carries, next to its own state, the list of the invocations
seen so far. The wrapped handler cannot reach that list. -/

/-- The arguments of one call of a `HandlerFunc`. -/
structure Invocation where
  ctx : Context
  data : RawMessage
deriving DecidableEq, Repr

/-- The arguments of one call of an `EventHandler`. -/
structure EventInvocation where
  ctx : Context
  event : Event
deriving DecidableEq, Repr

/-- The handler `next`, noting each of its calls: it runs `next` on the world
without the list and appends the arguments it was called with. -/
def recordNext {σ : Type} (next : HandlerFunc σ) : HandlerFunc (σ × List Invocation) :=
  fun ctx data w =>
    let r := next ctx data { log := w.log, rest := w.rest.1 }
    (r.1, { log := r.2.log, rest := (r.2.rest, w.rest.2 ++ [{ ctx := ctx, data := data }]) })

/-- The event handler `h`, noting each of its calls. -/
def recordEvent {σ : Type} (h : EventHandler σ) : EventHandler (σ × List EventInvocation) :=
  fun ctx event w =>
    let r := h ctx event { log := w.log, rest := w.rest.1 }
    (r.1, { log := r.2.log, rest := (r.2.rest, w.rest.2 ++ [{ ctx := ctx, event := event }]) })

/-! ## Sample inputs -/

/-- A context with no deadline, not cancelled, carrying no values. -/
def background : Context := { deadline := none, cancelled := false, values := [] }

/-- A context with a deadline, already cancelled. -/
def expired : Context := { deadline := some 5, cancelled := true, values := [("k", "v")] }

/-- A downstream handler that fails and leaves a line in the log. -/
def failingNext : HandlerFunc Nat :=
  fun _ctx _data w => ((Value.int 7, some (GoError.custom 1 "downstream")), logPrintln "next" w)

/-- An event handler that answers with the event's field and counts its calls. -/
def echoEvent : EventHandler Nat :=
  fun _ctx event w =>
    ((Value.string event.GenericField, some (GoError.custom 2 "business")),
      { w with rest := w.rest + 1 })

/-- The payload `{"ping": "a"}`. -/
def pingPayload : RawMessage := Json.bytes "\x7b\"ping\": \"a\"\x7d"

/-- The payload `{"GenericField": "x"}`. -/
def eventPayload : RawMessage := Json.bytes "\x7b\"GenericField\": \"x\"\x7d"

/-- The payload `{"GenericField": ""}`. -/
def emptyFieldPayload : RawMessage := Json.bytes "\x7b\"GenericField\": \"\"\x7d"

/-- The payload `{}`. -/
def emptyObjectPayload : RawMessage := Json.bytes "\x7b\x7d"

/-- The payload `not valid json`. -/
def malformedPayload : RawMessage := Json.bytes "not valid json"

/-- The payload `{"ping": "a", "GenericField": "x"}`. -/
def pingAndEventPayload : RawMessage :=
  Json.bytes "\x7b\"ping\": \"a\", \"GenericField\": \"x\"\x7d"

/-! ## Lemmas on the layers -/

/-- A probe hit: the answer is fixed and `next` plays no part in it. -/
theorem StayToasty_hit {σ : Type} (J : JsonPackage) (next : HandlerFunc σ) (ctx : Context)
    (data : RawMessage) (w : World σ)
    (hdec : (J.unmarshalPing data { Ping := "" }).2 = none)
    (hping : (J.unmarshalPing data { Ping := "" }).1.Ping ≠ "") :
    StayToasty J next ctx data w = ((Value.string "pong", none), logPrintln "ping" w) := by
  simp [StayToasty, hdec, hping]

/-- No probe hit: the layer is `next`. -/
theorem StayToasty_miss {σ : Type} (J : JsonPackage) (next : HandlerFunc σ) (ctx : Context)
    (data : RawMessage) (w : World σ)
    (h : (J.unmarshalPing data { Ping := "" }).2 ≠ none
      ∨ (J.unmarshalPing data { Ping := "" }).1.Ping = "") :
    StayToasty J next ctx data w = next ctx data w := by
  unfold StayToasty
  rcases h with h | h
  · simp [h]
  · simp [h]

/-- The first return of `ParseEvent`: the decoder reported an error. -/
theorem ParseEvent_decodeError {σ : Type} (J : JsonPackage) (h : EventHandler σ) (ctx : Context)
    (data : RawMessage) (w : World σ) (e : JsonError)
    (hdec : (J.unmarshalEvent data { GenericField := "" }).2 = some e) :
    ParseEvent J h ctx data w = ((Value.nil, some (GoError.json e)), w) := by
  simp [ParseEvent, hdec]

/-- The second return of `ParseEvent`: the field is empty. -/
theorem ParseEvent_empty {σ : Type} (J : JsonPackage) (h : EventHandler σ) (ctx : Context)
    (data : RawMessage) (w : World σ)
    (hdec : (J.unmarshalEvent data { GenericField := "" }).2 = none)
    (hempty : (J.unmarshalEvent data { GenericField := "" }).1.GenericField = "") :
    ParseEvent J h ctx data w
      = ((Value.nil, some (GoError.errorString "GenericField must be populated")), w) := by
  simp [ParseEvent, hdec, hempty]

/-- The last return of `ParseEvent`: control passes to `h`. -/
theorem ParseEvent_valid {σ : Type} (J : JsonPackage) (h : EventHandler σ) (ctx : Context)
    (data : RawMessage) (w : World σ)
    (hdec : (J.unmarshalEvent data { GenericField := "" }).2 = none)
    (hfield : (J.unmarshalEvent data { GenericField := "" }).1.GenericField ≠ "") :
    ParseEvent J h ctx data w = h ctx (J.unmarshalEvent data { GenericField := "" }).1 w := by
  simp [ParseEvent, hdec, hfield]

/-- The two ways the condition of `StayToasty` can fail. -/
theorem ping_miss_of_not_hit (J : JsonPackage) (data : RawMessage)
    (hit : ¬ ((J.unmarshalPing data { Ping := "" }).2 = none
      ∧ (J.unmarshalPing data { Ping := "" }).1.Ping ≠ "")) :
    (J.unmarshalPing data { Ping := "" }).2 ≠ none
      ∨ (J.unmarshalPing data { Ping := "" }).1.Ping = "" := by
  by_cases h1 : (J.unmarshalPing data { Ping := "" }).2 = none
  · right
    by_contra h2
    exact hit ⟨h1, h2⟩
  · left
    exact h1

/-- The registered handler on a probe hit. -/
theorem mainHandler_probe {σ : Type} (J : JsonPackage) (ctx : Context) (data : RawMessage)
    (w : World σ)
    (hit : (J.unmarshalPing data { Ping := "" }).2 = none
      ∧ (J.unmarshalPing data { Ping := "" }).1.Ping ≠ "") :
    mainHandler J ctx data w = ((Value.string "pong", none), logPrintln "ping" w) :=
  StayToasty_hit J _ ctx data w hit.1 hit.2

/-- The registered handler when the `Event` decoding fails. -/
theorem mainHandler_decodeError {σ : Type} (J : JsonPackage) (ctx : Context)
    (data : RawMessage) (w : World σ) (e : JsonError)
    (hit : ¬ ((J.unmarshalPing data { Ping := "" }).2 = none
      ∧ (J.unmarshalPing data { Ping := "" }).1.Ping ≠ ""))
    (hdec : (J.unmarshalEvent data { GenericField := "" }).2 = some e) :
    mainHandler J ctx data w = ((Value.nil, some (GoError.json e)), w) := by
  unfold mainHandler
  rw [StayToasty_miss J _ ctx data w (ping_miss_of_not_hit J data hit),
    ParseEvent_decodeError J _ ctx data w e hdec]

/-- The registered handler when `GenericField` is empty. -/
theorem mainHandler_empty {σ : Type} (J : JsonPackage) (ctx : Context) (data : RawMessage)
    (w : World σ)
    (hit : ¬ ((J.unmarshalPing data { Ping := "" }).2 = none
      ∧ (J.unmarshalPing data { Ping := "" }).1.Ping ≠ ""))
    (hdec : (J.unmarshalEvent data { GenericField := "" }).2 = none)
    (hempty : (J.unmarshalEvent data { GenericField := "" }).1.GenericField = "") :
    mainHandler J ctx data w
      = ((Value.nil, some (GoError.errorString "GenericField must be populated")), w) := by
  unfold mainHandler
  rw [StayToasty_miss J _ ctx data w (ping_miss_of_not_hit J data hit),
    ParseEvent_empty J _ ctx data w hdec hempty]

/-- The registered handler when the event reaches `Process`. -/
theorem mainHandler_processed {σ : Type} (J : JsonPackage) (ctx : Context) (data : RawMessage)
    (w : World σ)
    (hit : ¬ ((J.unmarshalPing data { Ping := "" }).2 = none
      ∧ (J.unmarshalPing data { Ping := "" }).1.Ping ≠ ""))
    (hdec : (J.unmarshalEvent data { GenericField := "" }).2 = none)
    (hfield : (J.unmarshalEvent data { GenericField := "" }).1.GenericField ≠ "") :
    mainHandler J ctx data w = ((Value.nil, none), logPrintln "processing event" w) := by
  unfold mainHandler
  rw [StayToasty_miss J _ ctx data w (ping_miss_of_not_hit J data hit),
    ParseEvent_valid J _ ctx data w hdec hfield]
  rfl

/-! ## StayToasty -/

/-- C1: when the payload decodes into the probe record without error and the
decoded `ping` is not empty, `StayToasty next` returns `"pong"` with a nil
error whatever `next` is, its only effect is the log line, and a `next` that
notes its calls has noted none. -/
theorem C1_StayToasty_ping_returns_pong {σ : Type} (J : JsonPackage) (next : HandlerFunc σ)
    (ctx : Context) (data : RawMessage) (w : World σ) (calls : List Invocation)
    (hdec : (J.unmarshalPing data { Ping := "" }).2 = none)
    (hping : (J.unmarshalPing data { Ping := "" }).1.Ping ≠ "") :
    StayToasty J next ctx data w = ((Value.string "pong", none), logPrintln "ping" w)
    ∧ (StayToasty J (recordNext next) ctx data { log := w.log, rest := (w.rest, calls) }).1
        = (Value.string "pong", none)
    ∧ (StayToasty J (recordNext next) ctx data { log := w.log, rest := (w.rest, calls) }).2.rest
        = (w.rest, calls) := by
  refine ⟨StayToasty_hit J next ctx data w hdec hping, ?_, ?_⟩
  · rw [StayToasty_hit J (recordNext next) ctx data _ hdec hping]
  · rw [StayToasty_hit J (recordNext next) ctx data _ hdec hping]
    rfl

/-- The payload `{"ping": "a"}` with the `encoding/json` decoder: the answer is
`"pong"`, the failing downstream handler leaves no trace. -/
theorem C1_StayToasty_ping_returns_pong_witness :
    (encodingJson.unmarshalPing pingPayload { Ping := "" }).2 = none
    ∧ (encodingJson.unmarshalPing pingPayload { Ping := "" }).1.Ping ≠ ""
    ∧ StayToasty encodingJson failingNext background pingPayload { log := [], rest := 0 }
        = ((Value.string "pong", none), { log := ["ping"], rest := 0 })
    ∧ (StayToasty encodingJson (recordNext failingNext) background pingPayload
          { log := [], rest := (0, []) }).2.rest = (0, []) :=
  have h := C1_StayToasty_ping_returns_pong encodingJson failingNext background pingPayload
    { log := [], rest := 0 } [] (by decide) (by decide)
  ⟨by decide, by decide, h.1, h.2.2⟩

/-- C2: when decoding into the probe record fails, or succeeds with an empty
`ping`, `StayToasty next` is one call of `next` with the same context and the
same payload: it returns the pair `next` returns and leaves the world `next`
leaves, and a `next` that notes its calls has noted exactly this one. -/
theorem C2_StayToasty_forwards_to_next {σ : Type} (J : JsonPackage) (next : HandlerFunc σ)
    (ctx : Context) (data : RawMessage) (w : World σ) (calls : List Invocation)
    (h : (J.unmarshalPing data { Ping := "" }).2 ≠ none
      ∨ (J.unmarshalPing data { Ping := "" }).1.Ping = "") :
    StayToasty J next ctx data w = next ctx data w
    ∧ StayToasty J (recordNext next) ctx data { log := w.log, rest := (w.rest, calls) }
        = ((next ctx data w).1,
            { log := (next ctx data w).2.log,
              rest := ((next ctx data w).2.rest, calls ++ [{ ctx := ctx, data := data }]) }) := by
  refine ⟨StayToasty_miss J next ctx data w h, ?_⟩
  rw [StayToasty_miss J (recordNext next) ctx data _ h]
  rfl

/-- The payload `{"GenericField": "x"}` carries no `ping`: the failing
downstream handler is called once with it and its answer comes back. -/
theorem C2_StayToasty_forwards_to_next_witness :
    ((encodingJson.unmarshalPing eventPayload { Ping := "" }).2 ≠ none
      ∨ (encodingJson.unmarshalPing eventPayload { Ping := "" }).1.Ping = "")
    ∧ StayToasty encodingJson failingNext expired eventPayload { log := [], rest := 0 }
        = ((Value.int 7, some (GoError.custom 1 "downstream")), { log := ["next"], rest := 0 })
    ∧ StayToasty encodingJson (recordNext failingNext) expired eventPayload
          { log := [], rest := (0, []) }
        = ((Value.int 7, some (GoError.custom 1 "downstream")),
            { log := ["next"], rest := (0, [{ ctx := expired, data := eventPayload }]) }) :=
  have h := C2_StayToasty_forwards_to_next encodingJson failingNext expired eventPayload
    { log := [], rest := 0 } [] (Or.inr (by decide))
  ⟨Or.inr (by decide), h.1, h.2⟩

/-- A payload that is not JSON makes the probe decoding fail; the failure is
absorbed and the downstream handler decides. -/
theorem StayToasty_malformed_forwards :
    (encodingJson.unmarshalPing malformedPayload { Ping := "" }).2 = some JsonError.syntaxError
    ∧ StayToasty encodingJson failingNext background malformedPayload { log := [], rest := 0 }
        = ((Value.int 7, some (GoError.custom 1 "downstream")), { log := ["next"], rest := 0 }) := by
  refine ⟨by decide, ?_⟩
  rw [StayToasty_miss encodingJson failingNext background malformedPayload _ (Or.inl (by decide))]
  rfl

/-! ## ParseEvent -/

/-- C3: when the payload decodes into an `Event` without error and its
`GenericField` is a non-empty string `x`, `ParseEvent h` is one call of `h` with
the same context and an `Event` whose `GenericField` is `x`: it returns the
result and the error `h` returns, untouched, and an `h` that notes its calls
has noted exactly this one. -/
theorem C3_ParseEvent_invokes_handler {σ : Type} (J : JsonPackage) (h : EventHandler σ)
    (ctx : Context) (data : RawMessage) (w : World σ) (calls : List EventInvocation)
    (x : String)
    (hdec : (J.unmarshalEvent data { GenericField := "" }).2 = none)
    (hfield : (J.unmarshalEvent data { GenericField := "" }).1.GenericField = x)
    (hx : x ≠ "") :
    ParseEvent J h ctx data w = h ctx { GenericField := x } w
    ∧ ParseEvent J (recordEvent h) ctx data { log := w.log, rest := (w.rest, calls) }
        = ((h ctx { GenericField := x } w).1,
            { log := (h ctx { GenericField := x } w).2.log,
              rest := ((h ctx { GenericField := x } w).2.rest,
                calls ++ [{ ctx := ctx, event := { GenericField := x } }]) }) := by
  have hne : (J.unmarshalEvent data { GenericField := "" }).1.GenericField ≠ "" := by
    rw [hfield]
    exact hx
  have hev : (J.unmarshalEvent data { GenericField := "" }).1 = { GenericField := x } := by
    rw [← hfield]
  refine ⟨?_, ?_⟩
  · rw [ParseEvent_valid J h ctx data w hdec hne, hev]
  · rw [ParseEvent_valid J (recordEvent h) ctx data _ hdec hne, hev]
    rfl

/-- The payload `{"GenericField": "x"}` with the `encoding/json` decoder: the
event handler is called once with `GenericField = "x"` and its answer, result
and error, comes back. -/
theorem C3_ParseEvent_invokes_handler_witness :
    (encodingJson.unmarshalEvent eventPayload { GenericField := "" }).2 = none
    ∧ (encodingJson.unmarshalEvent eventPayload { GenericField := "" }).1.GenericField = "x"
    ∧ "x" ≠ ""
    ∧ ParseEvent encodingJson echoEvent background eventPayload { log := [], rest := 0 }
        = ((Value.string "x", some (GoError.custom 2 "business")), { log := [], rest := 1 })
    ∧ ParseEvent encodingJson (recordEvent echoEvent) background eventPayload
          { log := [], rest := (0, []) }
        = ((Value.string "x", some (GoError.custom 2 "business")),
            { log := [],
              rest := (1, [{ ctx := background, event := { GenericField := "x" } }]) }) :=
  have h := C3_ParseEvent_invokes_handler encodingJson echoEvent background eventPayload
    { log := [], rest := 0 } [] "x" (by decide) (by decide) (by decide)
  ⟨by decide, by decide, by decide, h.1, h.2⟩

/-- C4: when the payload decodes into an `Event` without error but
`GenericField` is left empty, `ParseEvent h` returns a nil result with the
error `errors.New("GenericField must be populated")`, changes nothing, and an
`h` that notes its calls has noted none. -/
theorem C4_ParseEvent_rejects_empty_field {σ : Type} (J : JsonPackage) (h : EventHandler σ)
    (ctx : Context) (data : RawMessage) (w : World σ) (calls : List EventInvocation)
    (hdec : (J.unmarshalEvent data { GenericField := "" }).2 = none)
    (hempty : (J.unmarshalEvent data { GenericField := "" }).1.GenericField = "") :
    ParseEvent J h ctx data w
      = ((Value.nil, some (GoError.errorString "GenericField must be populated")), w)
    ∧ ParseEvent J (recordEvent h) ctx data { log := w.log, rest := (w.rest, calls) }
        = ((Value.nil, some (GoError.errorString "GenericField must be populated")),
            { log := w.log, rest := (w.rest, calls) }) :=
  ⟨ParseEvent_empty J h ctx data w hdec hempty,
    ParseEvent_empty J (recordEvent h) ctx data _ hdec hempty⟩

/-- The payload `{"GenericField": ""}` with the `encoding/json` decoder is
rejected by validation and the event handler is not called. -/
theorem C4_ParseEvent_rejects_empty_field_witness :
    (encodingJson.unmarshalEvent emptyFieldPayload { GenericField := "" }).2 = none
    ∧ (encodingJson.unmarshalEvent emptyFieldPayload { GenericField := "" }).1.GenericField = ""
    ∧ ParseEvent encodingJson echoEvent background emptyFieldPayload { log := [], rest := 0 }
        = ((Value.nil, some (GoError.errorString "GenericField must be populated")),
            { log := [], rest := 0 })
    ∧ ParseEvent encodingJson (recordEvent echoEvent) background emptyFieldPayload
          { log := [], rest := (0, []) }
        = ((Value.nil, some (GoError.errorString "GenericField must be populated")),
            { log := [], rest := (0, []) }) :=
  have h := C4_ParseEvent_rejects_empty_field encodingJson echoEvent background
    emptyFieldPayload { log := [], rest := 0 } [] (by decide) (by decide)
  ⟨by decide, by decide, h.1, h.2⟩

/-- The payload `{}` is rejected by validation in the same way. -/
theorem ParseEvent_rejects_empty_object :
    (encodingJson.unmarshalEvent emptyObjectPayload { GenericField := "" })
      = ({ GenericField := "" }, none)
    ∧ ParseEvent encodingJson (recordEvent echoEvent) background emptyObjectPayload
          { log := [], rest := (0, []) }
        = ((Value.nil, some (GoError.errorString "GenericField must be populated")),
            { log := [], rest := (0, []) }) := by
  refine ⟨by decide, ?_⟩
  exact ParseEvent_empty encodingJson (recordEvent echoEvent) background emptyObjectPayload _
    (by decide) (by decide)

/-- C5: when decoding the payload into an `Event` fails with error `e`,
`ParseEvent h` returns a nil result with `e` itself, changes nothing, and an
`h` that notes its calls has noted none; `e` is not the validation error. -/
theorem C5_ParseEvent_returns_decode_error {σ : Type} (J : JsonPackage) (h : EventHandler σ)
    (ctx : Context) (data : RawMessage) (w : World σ) (calls : List EventInvocation)
    (e : JsonError)
    (hdec : (J.unmarshalEvent data { GenericField := "" }).2 = some e) :
    ParseEvent J h ctx data w = ((Value.nil, some (GoError.json e)), w)
    ∧ ParseEvent J (recordEvent h) ctx data { log := w.log, rest := (w.rest, calls) }
        = ((Value.nil, some (GoError.json e)), { log := w.log, rest := (w.rest, calls) })
    ∧ (ParseEvent J h ctx data w).1.2
        ≠ some (GoError.errorString "GenericField must be populated") := by
  refine ⟨ParseEvent_decodeError J h ctx data w e hdec,
    ParseEvent_decodeError J (recordEvent h) ctx data _ e hdec, ?_⟩
  rw [ParseEvent_decodeError J h ctx data w e hdec]
  simp

/-- The payload `not valid json` with the `encoding/json` decoder: the syntax
error of the decoder comes back and the event handler is not called. -/
theorem C5_ParseEvent_returns_decode_error_witness :
    (encodingJson.unmarshalEvent malformedPayload { GenericField := "" }).2
      = some JsonError.syntaxError
    ∧ ParseEvent encodingJson echoEvent background malformedPayload { log := [], rest := 0 }
        = ((Value.nil, some (GoError.json JsonError.syntaxError)), { log := [], rest := 0 })
    ∧ ParseEvent encodingJson (recordEvent echoEvent) background malformedPayload
          { log := [], rest := (0, []) }
        = ((Value.nil, some (GoError.json JsonError.syntaxError)),
            { log := [], rest := (0, []) }) :=
  have h := C5_ParseEvent_returns_decode_error encodingJson echoEvent background
    malformedPayload { log := [], rest := 0 } [] JsonError.syntaxError (by decide)
  ⟨by decide, h.1, h.2.1⟩

/-! ## The composed chain -/

/-- C6: in the chain `StayToasty (ParseEvent h)`, a payload that decodes as a
probe with a non-empty `ping` and also as an `Event` with a non-empty
`GenericField` is answered with `"pong"` and a nil error; neither the
`ParseEvent` layer nor `h`, each noting its calls, has noted any. -/
theorem C6_chain_probe_decides_first {σ : Type} (J : JsonPackage) (h : EventHandler σ)
    (ctx : Context) (data : RawMessage) (w : World σ)
    (events : List EventInvocation) (calls : List Invocation)
    (hdec : (J.unmarshalPing data { Ping := "" }).2 = none)
    (hping : (J.unmarshalPing data { Ping := "" }).1.Ping ≠ "")
    (_hevent : (J.unmarshalEvent data { GenericField := "" }).2 = none)
    (_hfield : (J.unmarshalEvent data { GenericField := "" }).1.GenericField ≠ "") :
    StayToasty J (ParseEvent J h) ctx data w
      = ((Value.string "pong", none), logPrintln "ping" w)
    ∧ StayToasty J (recordNext (ParseEvent J (recordEvent h))) ctx data
          { log := w.log, rest := ((w.rest, events), calls) }
        = ((Value.string "pong", none),
            { log := w.log ++ ["ping"], rest := ((w.rest, events), calls) }) := by
  refine ⟨StayToasty_hit J _ ctx data w hdec hping, ?_⟩
  rw [StayToasty_hit J _ ctx data _ hdec hping]
  rfl

/-- The payload `{"ping": "a", "GenericField": "x"}` with the `encoding/json`
decoder satisfies both schemas and is answered by the probe layer alone. -/
theorem C6_chain_probe_decides_first_witness :
    (encodingJson.unmarshalPing pingAndEventPayload { Ping := "" }) = ({ Ping := "a" }, none)
    ∧ (encodingJson.unmarshalEvent pingAndEventPayload { GenericField := "" })
        = ({ GenericField := "x" }, none)
    ∧ StayToasty encodingJson (ParseEvent encodingJson echoEvent) background
          pingAndEventPayload { log := [], rest := 0 }
        = ((Value.string "pong", none), { log := ["ping"], rest := 0 })
    ∧ StayToasty encodingJson (recordNext (ParseEvent encodingJson (recordEvent echoEvent)))
          background pingAndEventPayload { log := [], rest := ((0, []), []) }
        = ((Value.string "pong", none), { log := ["ping"], rest := ((0, []), []) }) :=
  have h := C6_chain_probe_decides_first encodingJson echoEvent background pingAndEventPayload
    { log := [], rest := 0 } [] [] (by decide) (by decide) (by decide) (by decide)
  ⟨by decide, by decide, h.1, h.2⟩

/-- C7: an event handler that notes its calls, run under `ParseEvent` alone or
under the whole chain, has afterwards either noted nothing new or exactly one
call, and that call carries an `Event` whose `GenericField` is not empty. -/
theorem C7_handler_receives_validated_events {σ : Type} (J : JsonPackage) (h : EventHandler σ)
    (ctx : Context) (data : RawMessage) (w : World (σ × List EventInvocation)) :
    ((ParseEvent J (recordEvent h) ctx data w).2.rest.2 = w.rest.2
      ∨ ∃ ev : Event, ev.GenericField ≠ ""
          ∧ (ParseEvent J (recordEvent h) ctx data w).2.rest.2
              = w.rest.2 ++ [{ ctx := ctx, event := ev }])
    ∧ ((StayToasty J (ParseEvent J (recordEvent h)) ctx data w).2.rest.2 = w.rest.2
      ∨ ∃ ev : Event, ev.GenericField ≠ ""
          ∧ (StayToasty J (ParseEvent J (recordEvent h)) ctx data w).2.rest.2
              = w.rest.2 ++ [{ ctx := ctx, event := ev }]) := by
  have key : (ParseEvent J (recordEvent h) ctx data w).2.rest.2 = w.rest.2
      ∨ ∃ ev : Event, ev.GenericField ≠ ""
          ∧ (ParseEvent J (recordEvent h) ctx data w).2.rest.2
              = w.rest.2 ++ [{ ctx := ctx, event := ev }] := by
    cases hdec : (J.unmarshalEvent data { GenericField := "" }).2 with
    | some e =>
      left
      rw [ParseEvent_decodeError J _ ctx data w e hdec]
    | none =>
      by_cases hfield : (J.unmarshalEvent data { GenericField := "" }).1.GenericField = ""
      · left
        rw [ParseEvent_empty J _ ctx data w hdec hfield]
      · right
        refine ⟨(J.unmarshalEvent data { GenericField := "" }).1, hfield, ?_⟩
        rw [ParseEvent_valid J _ ctx data w hdec hfield]
        rfl
  refine ⟨key, ?_⟩
  by_cases hit : (J.unmarshalPing data { Ping := "" }).2 = none
      ∧ (J.unmarshalPing data { Ping := "" }).1.Ping ≠ ""
  · left
    rw [StayToasty_hit J _ ctx data w hit.1 hit.2]
    rfl
  · rw [StayToasty_miss J _ ctx data w (ping_miss_of_not_hit J data hit)]
    exact key

/-! ## Process and the registered handler -/

/-- C8: `Process` returns a nil result with a nil error for every context and
every `Event`; its only effect is the log line, and the returned pair is the
same for any two contexts, events and worlds. -/
theorem C8_Process_returns_nil {σ τ : Type} (ctx ctx' : Context) (event event' : Event)
    (w : World σ) (w' : World τ) :
    Process ctx event w = ((Value.nil, none), logPrintln "processing event" w)
    ∧ (Process ctx event w).1 = (Process ctx' event' w').1 :=
  ⟨rfl, rfl⟩

/-- C9: the pair returned by `StayToasty (ParseEvent Process)` and the lines it
logs are the same for one payload under any two contexts and any two worlds,
in particular in the world a first invocation leaves behind; an invocation
changes nothing of the world but the log. The pair tells the three classes
apart: `"pong"` for a probe, nil with nil for a parsed event, nil with an
error otherwise. -/
theorem C9_mainHandler_outcome_depends_on_payload_only {σ τ : Type} (J : JsonPackage)
    (data : RawMessage) (ctx₁ ctx₂ : Context) (w₁ : World σ) (w₂ : World τ) :
    (mainHandler J ctx₁ data w₁).1 = (mainHandler J ctx₂ data w₂).1
    ∧ (mainHandler J ctx₂ data (mainHandler J ctx₁ data w₁).2).1 = (mainHandler J ctx₁ data w₁).1
    ∧ (mainHandler J ctx₁ data w₁).2.rest = w₁.rest
    ∧ ∃ lines : List String,
        (mainHandler J ctx₁ data w₁).2.log = w₁.log ++ lines
        ∧ (mainHandler J ctx₂ data w₂).2.log = w₂.log ++ lines := by
  by_cases hit : (J.unmarshalPing data { Ping := "" }).2 = none
      ∧ (J.unmarshalPing data { Ping := "" }).1.Ping ≠ ""
  · have e₁ := mainHandler_probe J ctx₁ data w₁ hit
    have e₂ := mainHandler_probe J ctx₂ data w₂ hit
    have e₃ := mainHandler_probe J ctx₂ data (mainHandler J ctx₁ data w₁).2 hit
    refine ⟨by rw [e₁, e₂], by rw [e₃, e₁], by rw [e₁]; rfl, ["ping"], by rw [e₁]; rfl,
      by rw [e₂]; rfl⟩
  · cases hdec : (J.unmarshalEvent data { GenericField := "" }).2 with
    | some e =>
      have e₁ := mainHandler_decodeError J ctx₁ data w₁ e hit hdec
      have e₂ := mainHandler_decodeError J ctx₂ data w₂ e hit hdec
      have e₃ := mainHandler_decodeError J ctx₂ data (mainHandler J ctx₁ data w₁).2 e hit hdec
      refine ⟨by rw [e₁, e₂], by rw [e₃, e₁], by rw [e₁], [], by rw [e₁]; simp,
        by rw [e₂]; simp⟩
    | none =>
      by_cases hfield : (J.unmarshalEvent data { GenericField := "" }).1.GenericField = ""
      · have e₁ := mainHandler_empty J ctx₁ data w₁ hit hdec hfield
        have e₂ := mainHandler_empty J ctx₂ data w₂ hit hdec hfield
        have e₃ := mainHandler_empty J ctx₂ data (mainHandler J ctx₁ data w₁).2 hit hdec hfield
        refine ⟨by rw [e₁, e₂], by rw [e₃, e₁], by rw [e₁], [], by rw [e₁]; simp,
          by rw [e₂]; simp⟩
      · have e₁ := mainHandler_processed J ctx₁ data w₁ hit hdec hfield
        have e₂ := mainHandler_processed J ctx₂ data w₂ hit hdec hfield
        have e₃ :=
          mainHandler_processed J ctx₂ data (mainHandler J ctx₁ data w₁).2 hit hdec hfield
        refine ⟨by rw [e₁, e₂], by rw [e₃, e₁], by rw [e₁]; rfl, ["processing event"],
          by rw [e₁]; rfl, by rw [e₂]; rfl⟩

/-- C10: the pair returned by `StayToasty (ParseEvent Process)` is `"pong"` with
a nil error on a probe hit; otherwise nil with the decoder's error when
decoding the `Event` fails; otherwise nil with the validation error when
`GenericField` is empty; otherwise nil with a nil error. A non-nil result never
comes with a non-nil error, and the only non-nil result is `"pong"`. -/
theorem C10_mainHandler_four_outcomes {σ : Type} (J : JsonPackage) (ctx : Context)
    (data : RawMessage) (w : World σ) :
    (mainHandler J ctx data w).1 =
      (if (J.unmarshalPing data { Ping := "" }).2 = none
          ∧ (J.unmarshalPing data { Ping := "" }).1.Ping ≠ "" then
        (Value.string "pong", none)
      else
        match (J.unmarshalEvent data { GenericField := "" }).2 with
        | some e => (Value.nil, some (GoError.json e))
        | none =>
          if (J.unmarshalEvent data { GenericField := "" }).1.GenericField = "" then
            (Value.nil, some (GoError.errorString "GenericField must be populated"))
          else
            (Value.nil, none))
    ∧ ¬ ((mainHandler J ctx data w).1.1 ≠ Value.nil ∧ (mainHandler J ctx data w).1.2 ≠ none)
    ∧ ((mainHandler J ctx data w).1.1 = Value.nil
        ∨ (mainHandler J ctx data w).1.1 = Value.string "pong") := by
  by_cases hit : (J.unmarshalPing data { Ping := "" }).2 = none
      ∧ (J.unmarshalPing data { Ping := "" }).1.Ping ≠ ""
  · rw [mainHandler_probe J ctx data w hit, if_pos hit]
    simp
  · rw [if_neg hit]
    cases hdec : (J.unmarshalEvent data { GenericField := "" }).2 with
    | some e =>
      rw [mainHandler_decodeError J ctx data w e hit hdec]
      simp
    | none =>
      by_cases hfield : (J.unmarshalEvent data { GenericField := "" }).1.GenericField = ""
      · rw [mainHandler_empty J ctx data w hit hdec hfield, if_pos hfield]
        simp
      · rw [mainHandler_processed J ctx data w hit hdec hfield, if_neg hfield]
        simp

/-- The registered handler on the six payloads named by the specification,
with the `encoding/json` decoder. -/
theorem mainHandler_on_samples :
    (mainHandler encodingJson background pingPayload { log := [], rest := () }
        = ((Value.string "pong", none), { log := ["ping"], rest := () }))
    ∧ (mainHandler encodingJson background eventPayload { log := [], rest := () }
        = ((Value.nil, none), { log := ["processing event"], rest := () }))
    ∧ (mainHandler encodingJson background emptyFieldPayload { log := [], rest := () }
        = ((Value.nil, some (GoError.errorString "GenericField must be populated")),
            { log := [], rest := () }))
    ∧ (mainHandler encodingJson background emptyObjectPayload { log := [], rest := () }
        = ((Value.nil, some (GoError.errorString "GenericField must be populated")),
            { log := [], rest := () }))
    ∧ (mainHandler encodingJson background malformedPayload { log := [], rest := () }
        = ((Value.nil, some (GoError.json JsonError.syntaxError)), { log := [], rest := () }))
    ∧ (mainHandler encodingJson background pingAndEventPayload { log := [], rest := () }
        = ((Value.string "pong", none), { log := ["ping"], rest := () })) := by
  decide

end LambdaMiddleware
